import Mathlib

/-!
Verification of the PinMeTo location MCP server core: the paginated fetch
engine (`make_paginated_pmt_request` in src/helpers/helpers.py), the
authenticated HTTP client (`make_pmt_request`), the credential cache
(`get_pmt_access_token_async` and `_fetch_and_store_token` in
src/helpers/token.py), and the rendering path of the `get_locations` tool
(src/main.py, `format_list_response`).

The network and the environment are modelled as explicit parameters:
a response oracle `req : String → Option (PageBody α)` gives, for each URL,
the value `make_pmt_request` returns for it (`none` for the absence signal),
and the token path takes the configuration and the outcome of the single
HTTP exchange as inputs.  Python truthiness of the values involved (strings,
`None`, dicts, lists) is modelled explicitly where the code branches on it.
The `while` loop is embedded with an explicit fuel argument; a `none` result
means the fuel was exhausted before the loop terminated.
-/

namespace PinMeTo

/-- A JSON object body as consumed by the pagination loop: the `"data"` key
(`none` when absent, otherwise its list value), the `"paging"` key
(`none` when absent; when present, the optional `"nextUrl"` value inside it),
and a flag recording whether any other keys are present (needed to decide
Python truthiness of the whole dict). -/
structure PageBody (α : Type) where
  data : Option (List α)
  paging : Option (Option String)
  otherKeys : Bool
deriving Repr

/-- Python truthiness of the body dict: a dict is truthy iff it is nonempty. -/
def PageBody.truthy (b : PageBody α) : Bool :=
  b.data.isSome || b.paging.isSome || b.otherKeys

/-- Models `resp.get("data", [])`. -/
def PageBody.dataList (b : PageBody α) : List α :=
  b.data.getD []

/-- Models `resp.get("paging", {}).get("nextUrl")`. -/
def PageBody.nextUrl (b : PageBody α) : Option String :=
  b.paging.join

/-- The `while next_url:` loop of `make_paginated_pmt_request`
(src/helpers/helpers.py lines 35-48), with the accumulator `all_data`
threaded explicitly and an explicit fuel bound; `none` means the loop did
not terminate within `fuel` iterations.  `req url` is the value
`make_pmt_request(url)` returns.  `if not resp` is truthiness of the body
(`none` or a falsy dict); a falsy `next_url` (`None` or `""`) ends the loop
with the flag still `true`. -/
def fetchPages (req : String → Option (PageBody α)) :
    Nat → String → List α → Option (List α × Bool)
  | 0, _, _ => none
  | fuel + 1, url, acc =>
    if url = "" then some (acc, true)
    else
      match req url with
      | none => some (acc, false)
      | some b =>
        if b.truthy = false then some (acc, false)
        else
          let acc2 := acc ++ b.dataList
          match b.nextUrl with
          | none => some (acc2, true)
          | some u => if u = "" then some (acc2, true) else fetchPages req fuel u acc2

/-- Models `make_paginated_pmt_request(url)` (src/helpers/helpers.py lines 26-50):
run the loop from `url` with an empty accumulator and
`are_all_pages_fetched = true`. -/
def make_paginated_pmt_request (req : String → Option (PageBody α))
    (fuel : Nat) (url : String) : Option (List α × Bool) :=
  fetchPages req fuel url []

/-- A page chain from `url` in which every page request succeeds: each URL is
truthy, `req` answers with a truthy body, each body's `nextUrl` points at the
next link, and the final body's `nextUrl` is falsy (`None` or `""`).  The
second index lists the `data` items of each page in visitation order.
`nil` is the degenerate length-0 chain at a falsy start URL. -/
inductive GoodChain (req : String → Option (PageBody α)) :
    String → List (List α) → Prop where
  | nil : GoodChain req "" []
  | last (u : String) (b : PageBody α) :
      u ≠ "" → req u = some b → b.truthy = true →
      (b.nextUrl = none ∨ b.nextUrl = some "") →
      GoodChain req u [b.dataList]
  | cons (u u' : String) (b : PageBody α) (ps : List (List α)) :
      u ≠ "" → req u = some b → b.truthy = true →
      b.nextUrl = some u' → u' ≠ "" → GoodChain req u' ps →
      GoodChain req u (b.dataList :: ps)

/-- A page chain from `url` whose pages succeed until the last listed URL,
where the request comes back absent (`none`) or with a falsy body.  The first
index lists every URL the walk requests (the successful ones and the failing
one); the second lists the `data` items of the successful pages only. -/
inductive FailChain (req : String → Option (PageBody α)) :
    String → List String → List (List α) → Prop where
  | here (u : String) :
      u ≠ "" → (req u = none ∨ ∃ b, req u = some b ∧ b.truthy = false) →
      FailChain req u [u] []
  | cons (u u' : String) (b : PageBody α) (us : List String) (ps : List (List α)) :
      u ≠ "" → req u = some b → b.truthy = true →
      b.nextUrl = some u' → u' ≠ "" → FailChain req u' us ps →
      FailChain req u (u :: us) (b.dataList :: ps)

theorem fetchPages_goodChain {α : Type} {req : String → Option (PageBody α)}
    {u : String} {ps : List (List α)} (h : GoodChain req u ps) :
    ∀ fuel acc, ps.length < fuel →
      fetchPages req fuel u acc = some (acc ++ ps.flatten, true) := by
  induction h with
  | nil =>
    intro fuel acc hf
    match fuel, hf with
    | fuel + 1, _ => simp [fetchPages]
  | last u b hu hreq htr hnext =>
    intro fuel acc hf
    match fuel, hf with
    | fuel + 1, _ =>
      simp only [fetchPages, if_neg hu, hreq, htr]
      rcases hnext with hn | hn <;> simp [hn, PageBody.dataList]
  | cons u u' b ps hu hreq htr hnext hu' _ ih =>
    intro fuel acc hf
    match fuel, hf with
    | fuel + 1, hf =>
      have hf' : ps.length < fuel := by
        simpa using Nat.lt_of_succ_lt_succ hf
      simp only [fetchPages, if_neg hu, hreq, htr]
      simp only [Bool.true_eq_false, if_false, hnext, if_neg hu']
      rw [ih fuel (acc ++ b.dataList) hf']
      simp [List.append_assoc]

theorem fetchPages_failChain {α : Type} {req : String → Option (PageBody α)}
    {u : String} {us : List String} {ps : List (List α)}
    (h : FailChain req u us ps) :
    ∀ (req' : String → Option (PageBody α)), (∀ v ∈ us, req' v = req v) →
      ∀ fuel acc, ps.length < fuel →
        fetchPages req' fuel u acc = some (acc ++ ps.flatten, false) := by
  induction h with
  | here u hu hfail =>
    intro req' hagree fuel acc hf
    have hru : req' u = req u := hagree u (by simp)
    match fuel, hf with
    | fuel + 1, _ =>
      rcases hfail with hn | ⟨b, hb, htr⟩
      · simp [fetchPages, if_neg hu, hru, hn]
      · simp [fetchPages, if_neg hu, hru, hb, htr]
  | cons u u' b us ps hu hreq htr hnext hu' _ ih =>
    intro req' hagree fuel acc hf
    have hru : req' u = req u := hagree u (by simp)
    match fuel, hf with
    | fuel + 1, hf =>
      have hf' : ps.length < fuel := by
        simpa using Nat.lt_of_succ_lt_succ hf
      have hagree' : ∀ v ∈ us, req' v = req v := by
        intro v hv; exact hagree v (by simp [hv])
      simp only [fetchPages, if_neg hu, hru, hreq, htr]
      simp only [Bool.true_eq_false, if_false, hnext, if_neg hu']
      rw [ih req' hagree' fuel (acc ++ b.dataList) hf']
      simp [List.append_assoc]

theorem fetchPages_succ_stable {α : Type} {req : String → Option (PageBody α)} :
    ∀ (fuel : Nat) (url : String) (acc : List α) (r : List α × Bool),
      fetchPages req fuel url acc = some r →
      fetchPages req (fuel + 1) url acc = some r := by
  intro fuel
  induction fuel with
  | zero => intro url acc r h; simp [fetchPages] at h
  | succ fuel ih =>
    intro url acc r h
    by_cases hurl : url = ""
    · simpa [fetchPages, hurl] using h
    · cases hreq : req url with
      | none => simpa [fetchPages, hurl, hreq] using h
      | some b =>
        by_cases htr : b.truthy = false
        · simpa [fetchPages, hurl, hreq, htr] using h
        · cases hnext : b.nextUrl with
          | none => simpa [fetchPages, hurl, hreq, htr, hnext] using h
          | some u =>
            by_cases hu : u = ""
            · simpa [fetchPages, hurl, hreq, htr, hnext, hu] using h
            · have h' : fetchPages req fuel u (acc ++ b.dataList) = some r := by
                simpa [fetchPages, hurl, hreq, htr, hnext, hu] using h
              have := ih u (acc ++ b.dataList) r h'
              simpa [fetchPages, hurl, hreq, htr, hnext, hu] using this

theorem fetchPages_mono {α : Type} {req : String → Option (PageBody α)}
    {fuel fuel' : Nat} {url : String} {acc : List α} {r : List α × Bool}
    (hle : fuel ≤ fuel') (h : fetchPages req fuel url acc = some r) :
    fetchPages req fuel' url acc = some r := by
  induction hle with
  | refl => exact h
  | step _ ih => exact fetchPages_succ_stable _ _ _ _ ih

theorem fetchPages_falsyBody_eq {α : Type} {req : String → Option (PageBody α)}
    {u0 : String} {b0 : PageBody α}
    (hb : req u0 = some b0) (ht : b0.truthy = false) :
    ∀ (fuel : Nat) (url : String) (acc : List α),
      fetchPages req fuel url acc =
        fetchPages (fun v => if v = u0 then none else req v) fuel url acc := by
  intro fuel
  induction fuel with
  | zero => intro url acc; simp [fetchPages]
  | succ fuel ih =>
    intro url acc
    by_cases hurl : url = ""
    · simp [fetchPages, hurl]
    · by_cases heq : url = u0
      · subst heq
        simp [fetchPages, hurl, hb, ht]
      · cases hreq : req url with
        | none => simp [fetchPages, hurl, heq, hreq]
        | some b =>
          by_cases htr : b.truthy = false
          · simp [fetchPages, hurl, heq, hreq, htr]
          · cases hnext : b.nextUrl with
            | none => simp [fetchPages, hurl, heq, hreq, htr, hnext]
            | some u =>
              by_cases hu : u = ""
              · simp [fetchPages, hurl, heq, hreq, htr, hnext, hu]
              · simp only [fetchPages, if_neg hurl, if_neg heq, hreq,
                  eq_self_iff_true, htr, hnext, if_neg hu, if_false]
                simp only [Bool.not_eq_false] at htr
                simp only [htr, Bool.true_eq_false, if_false]
                exact ih u (acc ++ b.dataList)

/-! ## Credential cache (src/helpers/token.py) -/

/-- The two error classes of the token path: `configError` is the
`EnvironmentError` raised when the environment-variable check fails (the
spec's ConfigurationError); `exchangeError` covers every exception escaping
the HTTP exchange — transport error, timeout, `raise_for_status` on a
non-success status, and the `KeyError` for a missing `access_token` (the
spec's TokenExchangeError). -/
inductive TokenErr where
  | configError
  | exchangeError
deriving Repr, DecidableEq

/-- The outcome of the one HTTP POST of `_fetch_and_store_token`, were it
performed: `raised` when `client.post`, `raise_for_status` or `json()`
raises (network error, timeout, non-success status, malformed body);
`body tok` for a decoded JSON body whose `"access_token"` value is `tok`
(`none` when the field is absent). -/
inductive ExchangeOutcome where
  | raised
  | body (tok : Option String)
deriving Repr, DecidableEq

/-- The three environment variables `_fetch_and_store_token` reads;
`none` models an unset variable. -/
structure TokenConfig where
  apiUrl : Option String
  appId : Option String
  appSecret : Option String
deriving Repr, DecidableEq

/-- Python f-string interpolation of an `os.environ.get` result:
an unset variable prints as the four-character string `"None"`. -/
def pyFString : Option String → String
  | none => "None"
  | some s => s

/-- Python falsiness of an `os.environ.get` result: `None` or `""`. -/
def optStrFalsy : Option String → Bool
  | none => true
  | some s => s == ""

/-- The process-wide cache state: `_cached_token` (a string or `None`) and
`_cached_token_time` (seconds; `0` initially). -/
structure TokenState where
  cachedToken : Option String
  cachedTime : Int
deriving Repr, DecidableEq

/-- The constant `_TOKEN_CACHE_SECONDS = 59 * 60`. -/
def _TOKEN_CACHE_SECONDS : Int := 59 * 60

/-- The guard `_cached_token and (now - _cached_token_time) < _TOKEN_CACHE_SECONDS`:
the cached token is truthy (present and nonempty) and younger than 59 minutes. -/
def tokenFresh (st : TokenState) (now : Int) : Bool :=
  !optStrFalsy st.cachedToken && decide (now - st.cachedTime < _TOKEN_CACHE_SECONDS)

/-- Models `_fetch_and_store_token` (src/helpers/token.py lines 46-79).  Returns the
raised error or the token, paired with the number of HTTP POSTs performed
(0 or 1).  `token_url` is built by f-string interpolation BEFORE the falsiness
check, so an unset `PINMETO_API_URL` yields the truthy string
`"None/oauth/token"` and the `not token_url` branch cannot fire for it. -/
def _fetch_and_store_token (cfg : TokenConfig) (http : ExchangeOutcome) :
    Except TokenErr String × Nat :=
  let token_url := pyFString cfg.apiUrl ++ "/oauth/token"
  if (token_url == "") || optStrFalsy cfg.appId || optStrFalsy cfg.appSecret then
    (.error .configError, 0)
  else
    match http with
    | .raised => (.error .exchangeError, 1)
    | .body tok =>
      if optStrFalsy tok then (.error .exchangeError, 1)
      else (.ok (tok.getD ""), 1)

/-- Models `get_pmt_access_token_async` (src/helpers/token.py lines 30-43), with the
clock reading `now`, the configuration and the would-be exchange outcome as
inputs.  Returns the result (the token or the propagated error), the new
cache state, and the number of HTTP POSTs performed.  On a fresh cache the
cached token is returned unchanged; otherwise `_fetch_and_store_token` runs
once, and only on its success are `_cached_token` and `_cached_token_time`
overwritten (an exception propagates before the assignments). -/
def get_pmt_access_token_async (st : TokenState) (now : Int)
    (cfg : TokenConfig) (http : ExchangeOutcome) :
    Except TokenErr String × TokenState × Nat :=
  if tokenFresh st now then
    (.ok (st.cachedToken.getD ""), st, 0)
  else
    match _fetch_and_store_token cfg http with
    | (.ok t, n) => (.ok t, ⟨some t, now⟩, n)
    | (.error e, n) => (.error e, st, n)

/-! ## Authenticated HTTP client (src/helpers/helpers.py lines 10-21) -/

/-- The outcome of the `try` block of `make_pmt_request`: `raised` when
`client.get`, `raise_for_status` or `json()` raises (network error, timeout,
non-success status, malformed body); `body j` for a successfully decoded
JSON body `j`. -/
inductive GetOutcome (α : Type) where
  | raised
  | body (j : α)
deriving Repr, DecidableEq

/-- Models `make_pmt_request(url)`: `tok` is what `Token.get_pmt_access_token_async()`
produces and `http` the outcome of the guarded GET.  The token is awaited
OUTSIDE the `try`, so a token failure propagates as an exception
(`.error e`); inside the `try`, any exception is caught and `None` is
returned (`.ok none`), and a decoded body is returned as-is (`.ok (some j)`). -/
def make_pmt_request (tok : Except TokenErr String) (http : GetOutcome α) :
    Except TokenErr (Option α) :=
  match tok with
  | .error e => .error e
  | .ok _ =>
    match http with
    | .raised => .ok none
    | .body j => .ok (some j)

/-! ## Tool surface rendering (src/main.py, src/helpers/helpers.py lines 53-68) -/

/-- The divider `"-" * 20`. -/
def dashLine : String := String.mk (List.replicate 20 '-')

/-- Models `format_list_response(response, are_all_pages_fetched)`
(src/helpers/helpers.py lines 53-68); `toStr` models Python `str` on the
opaque items. -/
def format_list_response (toStr : α → String) (response : List α)
    (are_all_pages_fetched : Bool) : String :=
  if response.isEmpty then "The response was empty..."
  else
    let start := dashLine
    let start :=
      if are_all_pages_fetched = false then
        "Not All pages were successfully fetched, collected data:\n" ++ start
      else start
    response.foldl (fun msg r => msg ++ "\n" ++ toStr r ++ "\n" ++ dashLine) start

/-- The listing URL built by `get_locations`:
`f"{__PMT_API_URL}/listings/v3/{__ACCOUNT_ID}/locations?pagesize=100"`. -/
def locationsUrl (apiUrl accountId : String) : String :=
  apiUrl ++ "/listings/v3/" ++ accountId ++ "/locations?pagesize=100"

/-- The `get_locations` tool (src/main.py lines 36-52), with the environment
values and the response oracle as inputs; `none` when the underlying
pagination loop runs out of fuel.  After the fetch, `if not data` returns the
fixed failure message whenever the item list is empty — regardless of the
completeness flag — and only a nonempty list reaches `format_list_response`. -/
def get_locations (toStr : α → String) (apiUrl accountId : Option String)
    (req : String → Option (PageBody α)) (fuel : Nat) : Option String :=
  if optStrFalsy apiUrl || optStrFalsy accountId then
    some "Missing PINMETO_API_URL or PINMETO_ACCOUNT_ID environment variable."
  else
    match make_paginated_pmt_request req fuel
        (locationsUrl (apiUrl.getD "") (accountId.getD "")) with
    | none => none
    | some (data, are_all_pages_fetched) =>
      some (if data.isEmpty then "Unable to fetch location data."
            else format_list_response toStr data are_all_pages_fetched)

/-! ## Concrete oracles used to instantiate the theorems -/

/-- A two-page backing sequence: `"p1"` answers `{"data": [1, 2],
"paging": {"nextUrl": "p2"}}` and `"p2"` answers `{"data": [3], "paging": {}}`. -/
def sampleReq : String → Option (PageBody Nat) := fun v =>
  if v = "p1" then some (PageBody.mk (some [1, 2]) (some (some "p2")) false)
  else if v = "p2" then some (PageBody.mk (some [3]) (some none) false)
  else none

theorem sampleReq_goodChain : GoodChain sampleReq "p1" [[1, 2], [3]] := by
  have h2 : GoodChain sampleReq "p2" [[3]] := by
    have : GoodChain sampleReq "p2"
        [(PageBody.mk (some [3]) (some none) false : PageBody Nat).dataList] :=
      GoodChain.last "p2" (PageBody.mk (some [3]) (some none) false)
        (by decide) (by rfl) (by rfl) (Or.inl rfl)
    simpa [PageBody.dataList] using this
  have : GoodChain sampleReq "p1"
      ((PageBody.mk (some [1, 2]) (some (some "p2")) false :
        PageBody Nat).dataList :: [[3]]) :=
    GoodChain.cons "p1" "p2"
      (PageBody.mk (some [1, 2]) (some (some "p2")) false) [[3]]
      (by decide) (by rfl) (by rfl) (by rfl) (by decide) h2
  simpa [PageBody.dataList] using this

/-- A backing sequence whose second page fails: `"q1"` answers
`{"data": [1], "paging": {"nextUrl": "q2"}}` and `"q2"` yields the absence
signal. -/
def sampleReqFail : String → Option (PageBody Nat) := fun v =>
  if v = "q1" then some (PageBody.mk (some [1]) (some (some "q2")) false)
  else none

theorem sampleReqFail_failChain :
    FailChain sampleReqFail "q1" ["q1", "q2"] [[1]] := by
  have h2 : FailChain sampleReqFail "q2" ["q2"] [] :=
    FailChain.here "q2" (by decide) (Or.inl rfl)
  have : FailChain sampleReqFail "q1" ["q1", "q2"]
      ((PageBody.mk (some [1]) (some (some "q2")) false :
        PageBody Nat).dataList :: []) :=
    FailChain.cons "q1" "q2"
      (PageBody.mk (some [1]) (some (some "q2")) false) ["q2"] []
      (by decide) (by rfl) (by rfl) (by rfl) (by decide) h2
  simpa [PageBody.dataList] using this

/-- A backing sequence whose only page is retrieved with the falsy body `{}`. -/
def sampleReqFalsy : String → Option (PageBody Nat) := fun v =>
  if v = "e1" then some (PageBody.mk none none false) else none

/-! ## Claim theorems -/

/-- C1: for every page chain of length N ≥ 0 in which every page request
succeeds, `make_paginated_pmt_request` returns `complete = true` and an item
sequence equal to the concatenation of each page's data items, in visitation
order and within-page order — no item fabricated, duplicated, reordered or
dropped. -/
theorem make_paginated_all_pages_success {α : Type}
    {req : String → Option (PageBody α)} {url : String} {ps : List (List α)}
    (h : GoodChain req url ps) {fuel : Nat} (hf : ps.length < fuel) :
    make_paginated_pmt_request req fuel url = some (ps.flatten, true) := by
  simpa [make_paginated_pmt_request] using fetchPages_goodChain h fuel [] hf

theorem make_paginated_all_pages_success_witness :
    make_paginated_pmt_request sampleReq 3 "p1" = some ([1, 2, 3], true) := by
  simpa using make_paginated_all_pages_success sampleReq_goodChain (by decide)

/-- C2: for every page chain whose first failure is at page k, the function
returns `complete = false` with exactly the items of pages 1..k-1
concatenated, and the result is unchanged under any modification of the
backing sequence outside the k requested URLs — pages after the failure are
never requested. -/
theorem make_paginated_stops_at_first_failure {α : Type}
    {req : String → Option (PageBody α)} {url : String}
    {us : List String} {ps : List (List α)}
    (h : FailChain req url us ps) {fuel : Nat} (hf : ps.length < fuel) :
    make_paginated_pmt_request req fuel url = some (ps.flatten, false) ∧
      ∀ req' : String → Option (PageBody α), (∀ v ∈ us, req' v = req v) →
        make_paginated_pmt_request req' fuel url = some (ps.flatten, false) := by
  refine ⟨?_, ?_⟩
  · simpa [make_paginated_pmt_request] using
      fetchPages_failChain h req (fun v _ => rfl) fuel [] hf
  · intro req' hagree
    simpa [make_paginated_pmt_request] using
      fetchPages_failChain h req' hagree fuel [] hf

theorem make_paginated_stops_at_first_failure_witness :
    make_paginated_pmt_request sampleReqFail 2 "q1" = some ([1], false) := by
  simpa using
    (make_paginated_stops_at_first_failure sampleReqFail_failChain (by decide)).1

/-- C8: whenever the next-page links from the start URL form a finite chain —
either every page succeeds until a page without a next link, or a request
fails along the way — `make_paginated_pmt_request` terminates with a result. -/
theorem make_paginated_terminates {α : Type}
    {req : String → Option (PageBody α)} {url : String}
    (h : (∃ ps, GoodChain req url ps) ∨ ∃ us ps, FailChain req url us ps) :
    ∃ fuel r, make_paginated_pmt_request req fuel url = some r := by
  rcases h with ⟨ps, hg⟩ | ⟨us, ps, hfail⟩
  · refine ⟨ps.length + 1, (ps.flatten, true), ?_⟩
    simpa [make_paginated_pmt_request] using
      fetchPages_goodChain hg (ps.length + 1) [] (Nat.lt_succ_self _)
  · refine ⟨ps.length + 1, (ps.flatten, false), ?_⟩
    simpa [make_paginated_pmt_request] using
      fetchPages_failChain hfail req (fun v _ => rfl) (ps.length + 1) []
        (Nat.lt_succ_self _)

theorem make_paginated_terminates_witness :
    ∃ fuel r, make_paginated_pmt_request sampleReq fuel "p1" = some r :=
  make_paginated_terminates (Or.inl ⟨[[1, 2], [3]], sampleReq_goodChain⟩)

/-- C9: against a fixed backing sequence of pages, two calls with the same
start URL that both terminate yield identical item sequences and
completeness flags. -/
theorem make_paginated_idempotent {α : Type}
    {req : String → Option (PageBody α)} {url : String}
    {fuelA fuelB : Nat} {rA rB : List α × Bool}
    (hA : make_paginated_pmt_request req fuelA url = some rA)
    (hB : make_paginated_pmt_request req fuelB url = some rB) :
    rA = rB := by
  simp only [make_paginated_pmt_request] at hA hB
  rcases Nat.le_total fuelA fuelB with hle | hle
  · have := fetchPages_mono hle hA
    exact Option.some.inj (this.symm.trans hB)
  · have := fetchPages_mono hle hB
    exact (Option.some.inj (this.symm.trans hA)).symm

theorem make_paginated_idempotent_witness :
    (([1, 2, 3] : List Nat), true) = (([1, 2, 3] : List Nat), true) :=
  make_paginated_idempotent
    ((by decide :
      make_paginated_pmt_request sampleReq 3 "p1" = some ([1, 2, 3], true)))
    ((by decide :
      make_paginated_pmt_request sampleReq 4 "p1" = some ([1, 2, 3], true)))

/-- C10: a page whose request succeeds but whose decoded body is falsy (for
example `{}`) is treated exactly as a page-fetch failure: the walk is
abandoned there with `complete = false`, and replacing that page's response
by the absence signal changes nothing — the two are indistinguishable at the
fetch-engine boundary. -/
theorem make_paginated_falsy_body_as_failure {α : Type}
    {req : String → Option (PageBody α)} {u0 : String} {b0 : PageBody α}
    (hb : req u0 = some b0) (ht : b0.truthy = false) (hu : u0 ≠ "") :
    (∀ fuel acc, fetchPages req (fuel + 1) u0 acc = some (acc, false)) ∧
      ∀ fuel url, make_paginated_pmt_request req fuel url =
        make_paginated_pmt_request (fun v => if v = u0 then none else req v)
          fuel url := by
  refine ⟨?_, ?_⟩
  · intro fuel acc
    simp [fetchPages, hu, hb, ht]
  · intro fuel url
    simp only [make_paginated_pmt_request]
    exact fetchPages_falsyBody_eq hb ht fuel url []

theorem make_paginated_falsy_body_as_failure_witness :
    fetchPages sampleReqFalsy 1 "e1" [] = some ([], false) :=
  (make_paginated_falsy_body_as_failure
    ((by rfl :
      sampleReqFalsy "e1" = some (PageBody.mk none none false)))
    ((by rfl : (PageBody.mk none none false : PageBody Nat).truthy = false))
    ((by decide : ("e1" : String) ≠ ""))).1 0 []

/-- The interpolated token URL always ends in the 12 characters
`/oauth/token`, so it is never the empty (falsy) string — even when
`PINMETO_API_URL` is unset and interpolates as `"None"`. -/
theorem token_url_never_falsy (x : Option String) :
    ((pyFString x ++ "/oauth/token") == "") = false := by
  rw [beq_eq_false_iff_ne]
  intro h
  have hlen := congrArg String.length h
  rw [String.length_append] at hlen
  have h12 : ("/oauth/token" : String).length = 12 := rfl
  have h0 : ("" : String).length = 0 := rfl
  rw [h12, h0] at hlen
  omega

/-- C3: when the cached token is truthy and younger than 59 minutes, the
identical cached value is returned with no exchange call and no state
change; otherwise (with the credentials present) exactly one exchange call
is performed, and when it yields a token, that token is stored with the
issuance time set to the call time and returned. -/
theorem get_token_cache_behavior (st : TokenState) (now : Int)
    (cfg : TokenConfig) (http : ExchangeOutcome) :
    (tokenFresh st now = true →
      get_pmt_access_token_async st now cfg http =
        (.ok (st.cachedToken.getD ""), st, 0)) ∧
    (tokenFresh st now = false → optStrFalsy cfg.appId = false →
      optStrFalsy cfg.appSecret = false →
      (get_pmt_access_token_async st now cfg http).2.2 = 1) ∧
    (tokenFresh st now = false → optStrFalsy cfg.appId = false →
      optStrFalsy cfg.appSecret = false →
      ∀ t : String, http = .body (some t) → t ≠ "" →
        get_pmt_access_token_async st now cfg http =
          (.ok t, ⟨some t, now⟩, 1)) := by
  refine ⟨?_, ?_, ?_⟩
  · intro hfresh
    simp [get_pmt_access_token_async, hfresh]
  · intro hfresh hId hSec
    cases http with
    | raised =>
      simp [get_pmt_access_token_async, hfresh, _fetch_and_store_token,
        token_url_never_falsy, hId, hSec]
    | body tok =>
      by_cases htok : optStrFalsy tok = true
      · simp [get_pmt_access_token_async, hfresh, _fetch_and_store_token,
          token_url_never_falsy, hId, hSec, htok]
      · simp only [Bool.not_eq_true] at htok
        simp [get_pmt_access_token_async, hfresh, _fetch_and_store_token,
          token_url_never_falsy, hId, hSec, htok]
  · intro hfresh hId hSec t hbody ht
    have htok : optStrFalsy (some t) = false := by
      simpa [optStrFalsy] using ht
    subst hbody
    simp [get_pmt_access_token_async, hfresh, _fetch_and_store_token,
      token_url_never_falsy, hId, hSec, htok]

theorem get_token_cache_behavior_witness :
    get_pmt_access_token_async ⟨some "cached", 0⟩ 100
        ⟨some "https://api", some "id", some "secret"⟩ .raised =
      (.ok "cached", ⟨some "cached", 0⟩, 0) ∧
    get_pmt_access_token_async ⟨none, 0⟩ 100
        ⟨some "https://api", some "id", some "secret"⟩ (.body (some "fresh")) =
      (.ok "fresh", ⟨some "fresh", 100⟩, 1) := by
  constructor
  · exact (get_token_cache_behavior ⟨some "cached", 0⟩ 100
      ⟨some "https://api", some "id", some "secret"⟩ .raised).1 (by decide)
  · exact (get_token_cache_behavior ⟨none, 0⟩ 100
      ⟨some "https://api", some "id", some "secret"⟩ (.body (some "fresh"))).2.2
      (by decide) (by decide) (by decide) "fresh" rfl (by decide)

/-- C4: evaluation of `_fetch_and_store_token` at a configuration whose
API base URL is absent but whose credentials are present.  The f-string
interpolates the unset variable as `"None"`, the `not token_url` check
cannot fire, no `configError` is raised, and one network call is attempted
(the claim requires a ConfigurationError before any network call). -/
theorem missing_api_url_skips_config_check :
    _fetch_and_store_token ⟨none, some "app-id", some "app-secret"⟩ .raised =
      (.error .exchangeError, 1) ∧
    (⟨none, some "app-id", some "app-secret"⟩ : TokenConfig).apiUrl = none ∧
    (.error .exchangeError : Except TokenErr String) ≠ .error .configError := by
  refine ⟨rfl, rfl, ?_⟩
  intro h
  simp at h

/-- C7: with a stale or absent cached token and the credentials present, a
failing exchange — the POST raising (network error, timeout, non-success
status, malformed body) or a body whose `access_token` is absent or falsy —
makes `get_pmt_access_token_async` propagate the `exchangeError` to the
caller, leave the cache unchanged, and perform exactly one exchange call
(no internal retry). -/
theorem get_token_exchange_failure (st : TokenState) (now : Int)
    (cfg : TokenConfig) (http : ExchangeOutcome)
    (hfresh : tokenFresh st now = false)
    (hId : optStrFalsy cfg.appId = false)
    (hSec : optStrFalsy cfg.appSecret = false)
    (hfail : http = .raised ∨ http = .body none ∨ http = .body (some "")) :
    get_pmt_access_token_async st now cfg http =
      (.error .exchangeError, st, 1) := by
  have h1 : optStrFalsy none = true := rfl
  have h2 : optStrFalsy (some "") = true := rfl
  rcases hfail with h | h | h <;> subst h <;>
    simp [get_pmt_access_token_async, hfresh, _fetch_and_store_token,
      token_url_never_falsy, hId, hSec, h1, h2]

theorem get_token_exchange_failure_witness :
    get_pmt_access_token_async ⟨none, 0⟩ 100
        ⟨some "https://api", some "id", some "secret"⟩ (.body none) =
      (.error .exchangeError, ⟨none, 0⟩, 1) :=
  get_token_exchange_failure ⟨none, 0⟩ 100
    ⟨some "https://api", some "id", some "secret"⟩ (.body none)
    (by decide) (by decide) (by decide) (Or.inr (Or.inl rfl))

/-- C5 counterexample: when obtaining the token fails, `make_pmt_request`
does not return the absence signal `None`; the token error propagates to the
caller as an exception, because the token is awaited outside the `try`
block. -/
theorem make_pmt_request_token_failure_raises :
    make_pmt_request (.error TokenErr.exchangeError)
        (GetOutcome.body (0 : Nat)) = .error TokenErr.exchangeError ∧
    make_pmt_request (.error TokenErr.exchangeError)
        (GetOutcome.body (0 : Nat)) ≠ (.ok none : Except TokenErr (Option Nat)) := by
  refine ⟨rfl, ?_⟩
  intro h
  simp [make_pmt_request] at h

/-- C5 (amended): when the token is obtained, `make_pmt_request` returns
`None` on any failure of the guarded GET (network error, timeout,
non-success status, malformed body) and the parsed JSON body on success,
raising nothing; but a failure to obtain a token propagates unconverted to
the caller. -/
theorem make_pmt_request_behavior {α : Type} (tok : Except TokenErr String)
    (http : GetOutcome α) :
    (∀ t : String, tok = .ok t → http = .raised →
      make_pmt_request tok http = .ok none) ∧
    (∀ (t : String) (j : α), tok = .ok t → http = .body j →
      make_pmt_request tok http = .ok (some j)) ∧
    (∀ e : TokenErr, tok = .error e → make_pmt_request tok http = .error e) := by
  refine ⟨?_, ?_, ?_⟩
  · intro t htok hhttp
    subst htok; subst hhttp; rfl
  · intro t j htok hhttp
    subst htok; subst hhttp; rfl
  · intro e htok
    subst htok; rfl

theorem make_pmt_request_behavior_witness :
    make_pmt_request (.ok "tok") (GetOutcome.raised (α := Nat)) = .ok none :=
  (make_pmt_request_behavior (.ok "tok") (GetOutcome.raised (α := Nat))).1
    "tok" rfl rfl

/-- A backing sequence for the listing endpoint of account `acct` on
`https://api` whose single page answers `{"data": [], "paging": {}}`. -/
def emptyLocReq : String → Option (PageBody Nat) := fun v =>
  if v = locationsUrl "https://api" "acct" then
    some (PageBody.mk (some []) (some none) false)
  else none

/-- C6 counterexample: the fetch completes fully with an empty item sequence
(result `([], true)`), yet `get_locations` renders the fixed
`"Unable to fetch location data."` message, not the empty-collection
placeholder `"The response was empty..."` — the `if not data` guard fires
before `format_list_response` is reached. -/
theorem get_locations_empty_counterexample :
    make_paginated_pmt_request emptyLocReq 1
        (locationsUrl "https://api" "acct") = some ([], true) ∧
    get_locations (fun n : Nat => toString n) (some "https://api") (some "acct")
        emptyLocReq 1 = some "Unable to fetch location data." ∧
    ("Unable to fetch location data." : String) ≠ "The response was empty..." := by
  refine ⟨rfl, rfl, ?_⟩
  intro h
  simp at h

/-- C6 (amended): when a collection fetch completes fully with an empty item
sequence (result `([], true)`), `get_locations` returns the fixed
`"Unable to fetch location data."` message — the empty-data guard fires
regardless of the completeness flag — while `format_list_response` itself
maps an empty list to the empty-collection placeholder but is never reached
with one from `get_locations`. -/
theorem get_locations_empty_complete_renders_failure {α : Type}
    (toStr : α → String) (apiUrl accountId : String)
    (req : String → Option (PageBody α)) (fuel : Nat)
    (hA : apiUrl ≠ "") (hB : accountId ≠ "")
    (hfetch : make_paginated_pmt_request req fuel
      (locationsUrl apiUrl accountId) = some ([], true)) :
    get_locations toStr (some apiUrl) (some accountId) req fuel =
      some "Unable to fetch location data." ∧
    format_list_response toStr ([] : List α) true =
      "The response was empty..." := by
  have hA' : optStrFalsy (some apiUrl) = false := by
    simpa [optStrFalsy] using hA
  have hB' : optStrFalsy (some accountId) = false := by
    simpa [optStrFalsy] using hB
  refine ⟨?_, rfl⟩
  simp [get_locations, hA', hB', hfetch]

theorem get_locations_empty_complete_renders_failure_witness :
    get_locations (fun n : Nat => toString n) (some "https://api") (some "acct")
        emptyLocReq 1 = some "Unable to fetch location data." :=
  (get_locations_empty_complete_renders_failure (fun n : Nat => toString n)
    "https://api" "acct" emptyLocReq 1 (by decide) (by decide) rfl).1

end PinMeTo
